import Mathlib

/-
Verification of the polymarket momentum-sniper trading system.

Shallow embedding of the core components:
  * src/lib/fair_value.py        — binary-option fair value model
  * src/lib/trade_logger.py      — pending/resolved trade ledger
  * src/strategies/momentum_sniper.py — Kelly sizing, balance handling,
    opportunity scan, circuit breaker, order execution flow

Python floats are modelled as rationals; the transcendental helpers
(normal CDF, natural log, square root) are abstracted as function
parameters, since none of the verified properties depend on their values.
-/

namespace Sniper

/-! ## Fair value model (src/lib/fair_value.py) -/

/-- Seconds in a year: 365.25 * 24 * 3600 (src/lib/fair_value.py line 34). -/
def SECONDS_PER_YEAR : ℚ := 31557600

/-- Lower price bound (src/lib/fair_value.py line 37). -/
def MIN_PRICE : ℚ := 1/100

/-- Upper price bound (src/lib/fair_value.py line 38). -/
def MAX_PRICE : ℚ := 99/100

/-- Value of the d-statistic: the Python code stores either an actual
float or an infinity in the expired branch. -/
inductive DStat where
  | posInf : DStat
  | negInf : DStat
  | val : ℚ → DStat
deriving DecidableEq, Repr

/-- Result record of BinaryFairValue.calculate (src/lib/fair_value.py lines 46-55). -/
structure FairValue where
  fair_up : ℚ
  fair_down : ℚ
  d : DStat
  spot : ℚ
  strike : ℚ
  seconds_left : ℚ
  vol : ℚ
deriving DecidableEq, Repr

/-- Constructor parameters of BinaryFairValue (src/lib/fair_value.py line 81):
min_vol defaults to 0.10 and max_vol to 2.0. -/
structure BFVParams where
  min_vol : ℚ := 1/10
  max_vol : ℚ := 2
deriving DecidableEq, Repr

/-- Embedding of BinaryFairValue.calculate (src/lib/fair_value.py lines 85-151).
The normal CDF, natural log and square root are passed in as abstract
rational functions ncdf, rlog, rsqrt. -/
def calculate (ncdf rlog rsqrt : ℚ → ℚ) (cfg : BFVParams)
    (spot strike seconds_to_expiry volatility : ℚ) : FairValue :=
  let vol := max cfg.min_vol (min cfg.max_vol volatility)
  if seconds_to_expiry ≤ 0 then
    let fair_up : ℚ := if spot > strike then 1 else if spot < strike then 0 else 1/2
    { fair_up := fair_up, fair_down := 1 - fair_up,
      d := if spot > strike then DStat.posInf else DStat.negInf,
      spot := spot, strike := strike, seconds_left := 0, vol := vol }
  else if spot ≤ 0 ∨ strike ≤ 0 then
    { fair_up := 1/2, fair_down := 1/2, d := DStat.val 0,
      spot := spot, strike := strike, seconds_left := seconds_to_expiry, vol := vol }
  else
    let T := seconds_to_expiry / SECONDS_PER_YEAR
    let sigma_sqrt_t := vol * rsqrt T
    let dfu : ℚ × ℚ :=
      if sigma_sqrt_t < 1/10^10 then
        (0, if spot > strike then 1 else if spot < strike then 0 else 1/2)
      else
        let d := rlog (spot / strike) / sigma_sqrt_t
        (d, ncdf d)
    let fair_up := max MIN_PRICE (min MAX_PRICE dfu.2)
    let fair_down := max MIN_PRICE (min MAX_PRICE (1 - fair_up))
    { fair_up := fair_up, fair_down := fair_down, d := DStat.val dfu.1,
      spot := spot, strike := strike, seconds_left := seconds_to_expiry, vol := vol }

/-! ## Sizing configuration and Kelly bet (src/strategies/momentum_sniper.py) -/

/-- Fields of SniperConfig used by the embedded functions, with the
defaults of src/strategies/momentum_sniper.py lines 73-185. -/
structure SniperConfig where
  timeframe : String := "15m"
  min_edge : ℚ := 1/20
  strong_edge : ℚ := 1/10
  kelly_fraction : ℚ := 1/2
  kelly_strong : ℚ := 3/4
  bankroll : ℚ := 20
  min_bet_usdc : ℚ := 1
  max_bet_usdc : ℚ := 100
  max_bet_fraction : ℚ := 3/20
  min_size_mode : Bool := false
  max_volatility : ℚ := 1/2
  min_momentum : ℚ := 1/2000
  min_fair_value : ℚ := 1/2
  min_window_elapsed : ℚ := 0
  max_window_elapsed : ℚ := 0
  max_entry_price : ℚ := 17/20
  min_entry_price : ℚ := 1/50
  side_filter : String := "both"
  adaptive_kelly : Bool := false
  max_consecutive_losses : ℕ := 0
deriving DecidableEq, Repr

/-- SniperConfig with all defaults, as built by SniperConfig(). -/
def defaultSniperConfig : SniperConfig := {}

/-- TAKER_FEE_RATES dict lookup with default 0.0
(src/strategies/momentum_sniper.py lines 56-62). -/
def taker_fee_rate (timeframe : String) : ℚ :=
  if timeframe == "5m" then 176/10000
  else if timeframe == "15m" then 624/10000
  else 0

/-- Embedding of taker_fee_per_token (src/strategies/momentum_sniper.py lines 65-70). -/
def taker_fee_per_token (price : ℚ) (timeframe : String) : ℚ :=
  let rate := taker_fee_rate timeframe
  if rate ≤ 0 then 0 else price * (1 - price) * rate

/-- Python round() on a rational: round half to even. -/
def bankersRound (q : ℚ) : ℤ :=
  let f := ⌊q⌋
  let r := q - f
  if r < 1/2 then f
  else if 1/2 < r then f + 1
  else if f % 2 = 0 then f else f + 1

/-- Python round(q, 2): round to two decimal places, half to even. -/
def round2 (q : ℚ) : ℚ := (bankersRound (q * 100) : ℚ) / 100

/-- Embedding of MomentumSniperStrategy._available_balance
(src/strategies/momentum_sniper.py lines 499-506): the cached balance
floored at zero. -/
def available_balance (balance : ℚ) : ℚ := max 0 balance

/-- Embedding of MomentumSniperStrategy._refresh_balance
(src/strategies/momentum_sniper.py lines 489-497).  State is the pair
(cached balance, last check time); the balance query result is passed in
as an Option, none meaning the query failed / returned no value.
Returns the updated (balance, last check time). -/
def refresh_balance (now last_balance_check balance : ℚ) (query : Option ℚ) : ℚ × ℚ :=
  if now - last_balance_check < 10 then (balance, last_balance_check)
  else
    match query with
    | some b => (b, now)
    | none => (balance, now)

/-- Embedding of MomentumSniperStrategy._kelly_bet_usdc
(src/strategies/momentum_sniper.py lines 769-814).  The value that
_adaptive_kelly_fraction would return (it depends on mutable session
statistics and a square root) is abstracted as the parameter
adaptive_fraction; available is the result of _available_balance(). -/
def kelly_bet_usdc (cfg : SniperConfig) (adaptive_fraction available : ℚ)
    (fair_prob entry_price : ℚ) (strong : Bool) : ℚ :=
  if entry_price ≤ 1/100 ∨ entry_price ≥ 99/100 ∨ fair_prob ≤ 0 then 0
  else
    let p := fair_prob
    let q := 1 - p
    let b := 1 / entry_price - 1
    if b ≤ 0 then 0
    else
      let kelly_f := (p * b - q) / b
      if kelly_f ≤ 0 then 0
      else
        let fraction :=
          if cfg.adaptive_kelly then adaptive_fraction
          else
            let price_kelly := if entry_price ≥ 3/5 then cfg.kelly_strong else cfg.kelly_fraction
            let edge_kelly := if strong then cfg.kelly_strong else cfg.kelly_fraction
            max price_kelly edge_kelly
        let bet_fraction := kelly_f * fraction
        let bet_fraction :=
          if cfg.max_bet_fraction > 0 then min bet_fraction cfg.max_bet_fraction
          else bet_fraction
        if available < cfg.min_bet_usdc then 0
        else
          let usdc := bet_fraction * available
          let usdc := max cfg.min_bet_usdc (min cfg.max_bet_usdc usdc)
          min usdc available

/-! ## Opportunity scan (src/strategies/momentum_sniper.py lines 816-956) -/

/-- Data of one CoinMarketState as read by _find_opportunities.  The live
data providers (orderbook, price feed, fair value calculation) are
snapshot into fields. -/
structure ScanState where
  coin : String
  current_slug : String
  startup_slug : String
  seconds_to_expiry : ℚ
  market_start_time : ℚ
  current_vol : ℚ
  fair_value : Option FairValue
  has_up_position : Bool
  has_down_position : Bool
  last_fail_time_up : ℚ
  last_fail_time_down : ℚ
  best_ask_up : ℚ
  best_ask_down : ℚ
  strike_price : ℚ
  spot : ℚ
deriving DecidableEq, Repr

/-- One entry of the list returned by _find_opportunities:
the tuple (state, side, best_ask, edge, fv). -/
structure Opportunity where
  state : ScanState
  side : String
  price : ℚ
  edge : ℚ
  fv : FairValue
deriving DecidableEq, Repr

/-- Per-side body of the scan loop (src/strategies/momentum_sniper.py
lines 894-952): position checks, failure cooldown, ask-price filters,
edge computation and the confidence / momentum filters. -/
def check_side (cfg : SniperConfig) (now : ℚ) (st : ScanState) (fv : FairValue)
    (side : String) : List Opportunity :=
  if side == "up" && st.has_up_position then []
  else if side == "down" && st.has_down_position then []
  else
    let fail_time := if side == "up" then st.last_fail_time_up else st.last_fail_time_down
    if fail_time > 0 ∧ now - fail_time < 60 then []
    else
      let fair_prob := if side == "up" then fv.fair_up else fv.fair_down
      let best_ask := if side == "up" then st.best_ask_up else st.best_ask_down
      if best_ask ≤ 0 ∨ best_ask ≥ 1 then []
      else if best_ask > cfg.max_entry_price then []
      else if best_ask < cfg.min_entry_price then []
      else if side == "up" && st.has_down_position then []
      else if side == "down" && st.has_up_position then []
      else
        let buy_price := round2 best_ask
        let fee := taker_fee_per_token buy_price cfg.timeframe
        let edge := fair_prob - buy_price - fee
        if edge ≥ cfg.min_edge then
          if fair_prob < cfg.min_fair_value then []
          else if cfg.min_momentum > 0 ∧ st.strike_price > 0 then
            let displacement := (st.spot - st.strike_price) / st.strike_price
            if side == "up" && decide (displacement < cfg.min_momentum) then []
            else if side == "down" && decide (displacement > -cfg.min_momentum) then []
            else [{ state := st, side := side, price := best_ask, edge := edge, fv := fv }]
          else [{ state := st, side := side, price := best_ask, edge := edge, fv := fv }]
        else []

/-- Tail of the per-coin scan body after the per-coin filters: the fair
value check of line 880 and the side loop of lines 888-952. -/
def coin_opportunities_fv (cfg : SniperConfig) (now : ℚ) (st : ScanState) :
    List Opportunity :=
  match st.fair_value with
  | none => []
  | some fv =>
    let sides := if cfg.side_filter == "up" then ["up"]
      else if cfg.side_filter == "down" then ["down"]
      else ["up", "down"]
    sides.flatMap (check_side cfg now st fv)

/-- Per-coin body of the scan loop (src/strategies/momentum_sniper.py
lines 845-952): slug checks, expiry check, entry-window filters,
volatility filter, fair value, side selection. -/
def coin_opportunities (cfg : SniperConfig) (now : ℚ) (st : ScanState) :
    List Opportunity :=
  if st.current_slug == "" then []
  else if st.startup_slug == "" || st.current_slug == st.startup_slug then []
  else if st.seconds_to_expiry ≤ 0 then []
  else if cfg.min_window_elapsed > 0 ∧ st.market_start_time > 0 ∧
      now - st.market_start_time < cfg.min_window_elapsed then []
  else if cfg.max_window_elapsed > 0 ∧ st.market_start_time > 0 ∧
      now - st.market_start_time > cfg.max_window_elapsed then []
  else if cfg.max_volatility > 0 ∧ st.current_vol > cfg.max_volatility then []
  else coin_opportunities_fv cfg now st

/-- Stable insertion used to model list.sort(key=edge, reverse=True). -/
def insertByEdge (o : Opportunity) : List Opportunity → List Opportunity
  | [] => [o]
  | x :: xs => if o.edge ≤ x.edge then x :: insertByEdge o xs else o :: x :: xs

/-- Sort by edge descending (src/strategies/momentum_sniper.py line 955). -/
def sortByEdgeDesc (l : List Opportunity) : List Opportunity :=
  l.foldr insertByEdge []

/-- Embedding of MomentumSniperStrategy._find_opportunities
(src/strategies/momentum_sniper.py lines 816-956).  tripped is the
circuit-breaker flag; the UTC-clock based hour / weekend blocks are
passed in as booleans. -/
def findOpportunities (cfg : SniperConfig) (tripped hour_blocked weekend_blocked : Bool)
    (now : ℚ) (states : List ScanState) : List Opportunity :=
  if tripped then []
  else if hour_blocked then []
  else if weekend_blocked then []
  else sortByEdgeDesc (states.flatMap (coin_opportunities cfg now))

/-! ## Circuit breaker (src/strategies/momentum_sniper.py lines 423-427, 1270-1290, 1331-1349) -/

/-- Breaker fields of the strategy: _consecutive_loss_windows,
_last_loss_window and _circuit_breaker_tripped. -/
structure BreakerState where
  consecutive_loss_windows : ℕ
  last_loss_window : String
  tripped : Bool
deriving DecidableEq, Repr

/-- Breaker state at construction (src/strategies/momentum_sniper.py lines 425-427). -/
def initBreaker : BreakerState :=
  { consecutive_loss_windows := 0, last_loss_window := "", tripped := false }

/-- Python slug.rsplit("-", 1)[-1]: the part of the slug after its last
dash (the whole slug when it has none), computed over the char list. -/
def windowIdOf (slug : String) : String :=
  String.mk (slug.data.foldl (fun cur c => if c = '-' then [] else cur ++ [c]) [])

/-- Breaker update on a settled trade, from the win/loss branches of
_periodic_settle (src/strategies/momentum_sniper.py lines 1270-1289)
and the identical code in _handle_market_change (lines 1331-1349).
max_losses is config.max_consecutive_losses. -/
def record_settlement (max_losses : ℕ) (st : BreakerState) (slug : String)
    (won : Bool) : BreakerState :=
  if won then
    { st with consecutive_loss_windows := 0, last_loss_window := "" }
  else
    let wid := windowIdOf slug
    let st :=
      if wid ≠ st.last_loss_window then
        { st with consecutive_loss_windows := st.consecutive_loss_windows + 1,
                  last_loss_window := wid }
      else st
    if max_losses > 0 ∧ st.consecutive_loss_windows ≥ max_losses then
      { st with tripped := true }
    else st

/-- Fold of record_settlement over a sequence of settlements
(slug, won). -/
def process_settlements (max_losses : ℕ) (st : BreakerState)
    (events : List (String × Bool)) : BreakerState :=
  events.foldl (fun s e => record_settlement max_losses s e.1 e.2) st

/-! ## Association lists modelling Python dicts -/

/-- Lookup in an insertion-ordered association list (Python dict read). -/
def alistGet {α β : Type} [BEq α] (m : List (α × β)) (k : α) : Option β :=
  match m with
  | [] => none
  | kv :: rest => if kv.1 == k then some kv.2 else alistGet rest k

/-- Python dict assignment: replace the entry if the key is present
(keeping its position), otherwise append at the end. -/
def alistSet {α β : Type} [BEq α] (m : List (α × β)) (k : α) (v : β) :
    List (α × β) :=
  match m with
  | [] => [(k, v)]
  | kv :: rest => if kv.1 == k then (k, v) :: rest else kv :: alistSet rest k v

/-- Python dict.pop: remove the (first) entry with the given key. -/
def alistErase {α β : Type} [BEq α] (m : List (α × β)) (k : α) :
    List (α × β) :=
  match m with
  | [] => []
  | kv :: rest => if kv.1 == k then rest else kv :: alistErase rest k

/-- Lookup in an integer-keyed counter dict with default 0
(Python d.get(k, 0)). -/
def zget (m : List (ℤ × ℤ)) (k : ℤ) : ℤ := (alistGet m k).getD 0

/-- Python d[k] = d.get(k, 0) + 1. -/
def zincr (m : List (ℤ × ℤ)) (k : ℤ) : List (ℤ × ℤ) :=
  alistSet m k (zget m k + 1)

/-! ## Trade ledger (src/lib/trade_logger.py) -/

/-- Embedding of the TradeRecord dataclass (src/lib/trade_logger.py
lines 40-64), fields in source order. -/
structure TradeRecord where
  timestamp : String
  market_slug : String
  coin : String
  timeframe : String
  side : String
  entry_price : ℚ
  bet_size_usdc : ℚ
  num_tokens : ℚ
  outcome : String := "pending"
  payout : ℚ := 0
  pnl : ℚ := 0
  bankroll : ℚ := 0
  usdc_balance : ℚ := 0
  btc_price : ℚ := 0
  other_side_price : ℚ := 0
  volatility_std : ℚ := 0
deriving DecidableEq, Repr

/-- TradeRecord.trade_key (src/lib/trade_logger.py lines 61-64). -/
def TradeRecord.trade_key (r : TradeRecord) : String :=
  r.market_slug ++ ":" ++ r.side

/-- Embedding of the SessionStats dataclass (src/lib/trade_logger.py
lines 67-81); the two per-bucket dicts are association lists. -/
structure SessionStats where
  total_trades : ℤ := 0
  wins : ℤ := 0
  losses : ℤ := 0
  pending : ℤ := 0
  total_wagered : ℚ := 0
  total_payout : ℚ := 0
  total_pnl : ℚ := 0
  bucket_trades : List (ℤ × ℤ) := []
  bucket_wins : List (ℤ × ℤ) := []
deriving DecidableEq, Repr

/-- State of a TradeLogger: the pending dict keyed by trade key, the
append-only resolved log (one entry per CSV row written by
_write_record), and the session stats. -/
structure LoggerState where
  pending : List (String × TradeRecord)
  resolved : List TradeRecord
  stats : SessionStats
deriving DecidableEq, Repr

/-- A fresh TradeLogger over empty files. -/
def emptyLogger : LoggerState :=
  { pending := [], resolved := [], stats := {} }

/-- Embedding of TradeLogger.log_trade (src/lib/trade_logger.py lines
222-271).  The wall-clock timestamp is passed in.  Returns the updated
state and the created record. -/
def log_trade (s : LoggerState) (timestamp market_slug coin timeframe side : String)
    (entry_price bet_size_usdc num_tokens bankroll usdc_balance btc_price
      other_side_price volatility_std : ℚ) : LoggerState × TradeRecord :=
  let record : TradeRecord :=
    { timestamp := timestamp, market_slug := market_slug, coin := coin,
      timeframe := timeframe, side := side, entry_price := entry_price,
      bet_size_usdc := bet_size_usdc, num_tokens := num_tokens,
      bankroll := bankroll, usdc_balance := usdc_balance, btc_price := btc_price,
      other_side_price := other_side_price, volatility_std := volatility_std }
  let price_bucket := bankersRound (entry_price * 100)
  let stats := s.stats
  let stats := { stats with
    total_trades := stats.total_trades + 1,
    pending := stats.pending + 1,
    total_wagered := stats.total_wagered + bet_size_usdc,
    bucket_trades := zincr stats.bucket_trades price_bucket }
  ({ s with pending := alistSet s.pending record.trade_key record, stats := stats },
    record)

/-- Mutation of the popped record inside TradeLogger.log_outcome
(src/lib/trade_logger.py lines 290-294). -/
def resolve_record (r : TradeRecord) (won : Bool) (payout usdc_balance : ℚ) :
    TradeRecord :=
  { r with outcome := if won then "won" else "lost",
           payout := payout,
           pnl := payout - r.bet_size_usdc,
           usdc_balance := if usdc_balance > 0 then usdc_balance else r.usdc_balance }

/-- Embedding of TradeLogger.log_outcome (src/lib/trade_logger.py lines
273-312).  Popping a missing key returns the state unchanged; otherwise
the pending entry is removed, stats are updated and the resolved record
is appended to the CSV log (modelled as appending the record itself). -/
def log_outcome (s : LoggerState) (market_slug side : String) (won : Bool)
    (payout usdc_balance : ℚ) : LoggerState :=
  let trade_key := market_slug ++ ":" ++ side
  match alistGet s.pending trade_key with
  | none => s
  | some record0 =>
    let record := resolve_record record0 won payout usdc_balance
    let stats := s.stats
    let stats := { stats with pending := stats.pending - 1 }
    let stats :=
      if won then
        { stats with wins := stats.wins + 1,
                     total_payout := stats.total_payout + payout,
                     bucket_wins := zincr stats.bucket_wins
                       (bankersRound (record.entry_price * 100)) }
      else { stats with losses := stats.losses + 1 }
    let stats := { stats with total_pnl := stats.total_pnl + record.pnl }
    { pending := alistErase s.pending trade_key,
      resolved := s.resolved ++ [record],
      stats := stats }

/-! ## Pending sidecar serialization (src/lib/trade_logger.py lines 194-220) -/

/-- JSON scalar as produced by json.dump of a TradeRecord dict: every
field is a string or a number. -/
inductive JVal where
  | s : String → JVal
  | n : ℚ → JVal
deriving DecidableEq, Repr

/-- Python dataclasses.asdict of a TradeRecord, fields in source order. -/
def asdictTR (r : TradeRecord) : List (String × JVal) :=
  [("timestamp", JVal.s r.timestamp),
   ("market_slug", JVal.s r.market_slug),
   ("coin", JVal.s r.coin),
   ("timeframe", JVal.s r.timeframe),
   ("side", JVal.s r.side),
   ("entry_price", JVal.n r.entry_price),
   ("bet_size_usdc", JVal.n r.bet_size_usdc),
   ("num_tokens", JVal.n r.num_tokens),
   ("outcome", JVal.s r.outcome),
   ("payout", JVal.n r.payout),
   ("pnl", JVal.n r.pnl),
   ("bankroll", JVal.n r.bankroll),
   ("usdc_balance", JVal.n r.usdc_balance),
   ("btc_price", JVal.n r.btc_price),
   ("other_side_price", JVal.n r.other_side_price),
   ("volatility_std", JVal.n r.volatility_std)]

/-- Field names accepted by TradeRecord(**d); any other key raises. -/
def trFieldNames : List String :=
  ["timestamp", "market_slug", "coin", "timeframe", "side", "entry_price",
   "bet_size_usdc", "num_tokens", "outcome", "payout", "pnl", "bankroll",
   "usdc_balance", "btc_price", "other_side_price", "volatility_std"]

/-- Required string field of a record dict. -/
def jstr (v : Option JVal) : Option String :=
  match v with
  | some (JVal.s x) => some x
  | _ => none

/-- Required numeric field of a record dict. -/
def jnum (v : Option JVal) : Option ℚ :=
  match v with
  | some (JVal.n x) => some x
  | _ => none

/-- String field with a dataclass default. -/
def jstrD (v : Option JVal) (dflt : String) : Option String :=
  match v with
  | none => some dflt
  | some (JVal.s x) => some x
  | some (JVal.n _) => none

/-- Numeric field with a dataclass default. -/
def jnumD (v : Option JVal) (dflt : ℚ) : Option ℚ :=
  match v with
  | none => some dflt
  | some (JVal.n x) => some x
  | some (JVal.s _) => none

/-- Python TradeRecord(**record_dict): build a record from a parsed JSON
dict, failing (raising) on unknown keys, missing required fields or
type-mismatched values. -/
def fromDictTR (d : List (String × JVal)) : Option TradeRecord :=
  if d.all (fun kv => trFieldNames.contains kv.1) then do
    let timestamp ← jstr (alistGet d "timestamp")
    let market_slug ← jstr (alistGet d "market_slug")
    let coin ← jstr (alistGet d "coin")
    let timeframe ← jstr (alistGet d "timeframe")
    let side ← jstr (alistGet d "side")
    let entry_price ← jnum (alistGet d "entry_price")
    let bet_size_usdc ← jnum (alistGet d "bet_size_usdc")
    let num_tokens ← jnum (alistGet d "num_tokens")
    let outcome ← jstrD (alistGet d "outcome") "pending"
    let payout ← jnumD (alistGet d "payout") 0
    let pnl ← jnumD (alistGet d "pnl") 0
    let bankroll ← jnumD (alistGet d "bankroll") 0
    let usdc_balance ← jnumD (alistGet d "usdc_balance") 0
    let btc_price ← jnumD (alistGet d "btc_price") 0
    let other_side_price ← jnumD (alistGet d "other_side_price") 0
    let volatility_std ← jnumD (alistGet d "volatility_std") 0
    pure { timestamp := timestamp, market_slug := market_slug, coin := coin,
           timeframe := timeframe, side := side, entry_price := entry_price,
           bet_size_usdc := bet_size_usdc, num_tokens := num_tokens,
           outcome := outcome, payout := payout, pnl := pnl,
           bankroll := bankroll, usdc_balance := usdc_balance,
           btc_price := btc_price, other_side_price := other_side_price,
           volatility_std := volatility_std }
  else none

/-- Embedding of TradeLogger._save_pending (src/lib/trade_logger.py lines
210-220): the JSON object written to the sidecar file, one entry per
pending trade. -/
def savePending (m : List (String × TradeRecord)) :
    List (String × List (String × JVal)) :=
  m.map (fun kv => (kv.1, asdictTR kv.2))

/-- Loop body of TradeLogger._load_pending (src/lib/trade_logger.py lines
194-208): records are inserted one by one; an exception (a record dict
that does not build) aborts the loop, keeping what was loaded so far. -/
def loadPendingGo (acc : List (String × TradeRecord))
    (data : List (String × List (String × JVal))) : List (String × TradeRecord) :=
  match data with
  | [] => acc
  | (k, d) :: rest =>
    match fromDictTR d with
    | none => acc
    | some r => loadPendingGo (alistSet acc k r) rest

/-- Embedding of TradeLogger._load_pending starting from the empty dict
of a fresh logger. -/
def loadPending (data : List (String × List (String × JVal))) :
    List (String × TradeRecord) :=
  loadPendingGo [] data

/-! ## Order execution flow (src/strategies/momentum_sniper.py lines 958-1189) -/

/-- Result of TradingBot.place_order as read by _execute_snipe: the
success flag and the order status.  The status field holds the value of
Python (result.status or "").upper(), i.e. the already upper-cased
status string. -/
structure OrderResult where
  success : Bool
  status : String
deriving DecidableEq, Repr

/-- Externally visible events of one _execute_snipe call, in order: an
order submission network call, or a completed ledger write (a
trade_logger.log_trade call that runs and persists the pending
sidecar).  The theorems show ledgerWrite never occurs on either path of
this strategy: the log_trade calls at src/strategies/momentum_sniper.py
lines 1141 and 1008 pass keyword arguments (fair_value_at_entry,
vol_source, strike_source, ...) that TradeLogger.log_trade
(src/lib/trade_logger.py lines 222-236, no kwargs catch-all) does not
accept, so the call raises TypeError before any of log_trade runs. -/
inductive SnipeEvent where
  | placeOrder : SnipeEvent
  | ledgerWrite : SnipeEvent
deriving DecidableEq, Repr

/-- How one _execute_snipe call ends: a normal return of its boolean, or
an uncaught TypeError raised at the malformed log_trade call site. -/
inductive SnipeOutcome where
  | returns : Bool → SnipeOutcome
  | raisesTypeError : SnipeOutcome
deriving DecidableEq, Repr

/-- Membership test status in ("LIVE", "OPEN") on the upper-cased status
(src/strategies/momentum_sniper.py lines 1108-1109). -/
def statusUnfilled (status : String) : Bool :=
  status == "LIVE" || status == "OPEN"

/-- Python int() on a nonnegative rational (truncation). -/
def pyInt (q : ℚ) : ℚ := if q < 0 then -(⌊-q⌋ : ℤ) else (⌊q⌋ : ℤ)

/-- Sizing block of the live path of MomentumSniperStrategy._execute_snipe
(src/strategies/momentum_sniper.py lines 1040-1065, observe_only false).
use_kelly is the line 1045 condition; the result is the token count, or
none when the trade is rejected before any order is placed. -/
def snipeSizing (cfg : SniperConfig) (adaptive_fraction available : ℚ)
    (fair_prob entry_price : ℚ) (strong use_kelly : Bool) : Option ℚ :=
  if use_kelly then
    let bet_usdc := kelly_bet_usdc cfg adaptive_fraction available fair_prob
      entry_price strong
    if bet_usdc < cfg.min_bet_usdc then none
    else some (pyInt (bet_usdc / entry_price))
  else
    let num_tokens : ℚ := 5
    let bet_usdc := num_tokens * entry_price
    if bet_usdc < 1 then none
    else if bet_usdc > available then none
    else some num_tokens

/-- Live-mode event trace of MomentumSniperStrategy._execute_snipe
(src/strategies/momentum_sniper.py lines 1040-1189, observe_only false):
sizing, the token-id check, the FOK submission, the min-size retry on
failure, then — on a filled result, after the balance deduction and
position bookkeeping of lines 1114-1130 — the trade_logger.log_trade
call of line 1141, which raises TypeError (its keyword arguments
fair_value_at_entry etc. are not parameters of TradeLogger.log_trade),
so no pending record is written and line 1175's return True is never
reached.  has_token is whether token_ids has the side; first / retry
are the results of the one or two place_order calls.  Returns the
ordered event list and how the call ends. -/
def executeSnipeLive (cfg : SniperConfig) (adaptive_fraction available : ℚ)
    (fair_prob entry_price : ℚ) (strong use_kelly has_token : Bool)
    (first retry : OrderResult) : List SnipeEvent × SnipeOutcome :=
  match snipeSizing cfg adaptive_fraction available fair_prob entry_price
    strong use_kelly with
  | none => ([], SnipeOutcome.returns false)
  | some num_tokens =>
    if num_tokens < 5 then ([], SnipeOutcome.returns false)
    else if has_token = false then ([], SnipeOutcome.returns false)
    else if first.success = false ∧ num_tokens > 5 then
      if retry.success ∧ statusUnfilled retry.status = false then
        ([SnipeEvent.placeOrder, SnipeEvent.placeOrder], SnipeOutcome.raisesTypeError)
      else ([SnipeEvent.placeOrder, SnipeEvent.placeOrder], SnipeOutcome.returns false)
    else
      if first.success ∧ statusUnfilled first.status = false then
        ([SnipeEvent.placeOrder], SnipeOutcome.raisesTypeError)
      else ([SnipeEvent.placeOrder], SnipeOutcome.returns false)

/-- Paper-mode event trace of _execute_snipe (src/strategies/
momentum_sniper.py lines 968-1038, observe_only true): a simulated FOK
depth check, then the log_trade call of line 1008, which raises
TypeError for the same reason as the live path — it passes keyword
arguments TradeLogger.log_trade does not accept — so the paper path
also persists nothing and never returns True. -/
def executeSnipePaper (ob_best_ask_size : Option ℚ) : List SnipeEvent × SnipeOutcome :=
  match ob_best_ask_size with
  | some sz =>
    if sz < 5 then ([], SnipeOutcome.returns false)
    else ([], SnipeOutcome.raisesTypeError)
  | none => ([], SnipeOutcome.raisesTypeError)

/-! ## Concrete ledger instance (used to witness the ledger theorems) -/

/-- Pending record for the ledger witnesses: up side of market "m" at
entry 0.50, 5 tokens for 2.50 USDC. -/
def ledgerRecW : TradeRecord :=
  { timestamp := "t", market_slug := "m", coin := "BTC", timeframe := "15m",
    side := "up", entry_price := 1/2, bet_size_usdc := 5/2, num_tokens := 5 }

/-- Logger state holding exactly the pending record ledgerRecW. -/
def ledgerStW : LoggerState :=
  { pending := [("m:up", ledgerRecW)], resolved := [], stats := { pending := 1 } }

/-! ## Concrete scan instance (used to witness the startup-window exclusion) -/

/-- Configuration for the witness scan: fee-free 4h timeframe, momentum
filter disabled, all other defaults. -/
def scanCfgW : SniperConfig := { timeframe := "4h", min_momentum := 0 }

/-- Fair value snapshot for the witness scan. -/
def scanFvW : FairValue :=
  { fair_up := 7/10, fair_down := 3/10, d := DStat.val 0, spot := 101, strike := 100,
    seconds_left := 300, vol := 3/10 }

/-- Coin state for the witness scan: a fresh window, no positions, an
ask of 0.50 on the up side. -/
def scanStW : ScanState :=
  { coin := "BTC", current_slug := "btc-updown-4h-200", startup_slug := "btc-updown-4h-100",
    seconds_to_expiry := 300, market_start_time := 0, current_vol := 3/10,
    fair_value := some scanFvW, has_up_position := false, has_down_position := false,
    last_fail_time_up := 0, last_fail_time_down := 0, best_ask_up := 1/2,
    best_ask_down := 0, strike_price := 100, spot := 101 }

/-- The opportunity the witness scan produces: up side at 0.50 with
edge 0.70 - 0.50 - 0 = 0.20. -/
def scanOppW : Opportunity :=
  { state := scanStW, side := "up", price := 1/2, edge := 1/5, fv := scanFvW }

/-! ## Theorems -/

/-- Membership is preserved when peeling an if whose then-branch is
empty. -/
theorem mem_of_mem_ite_nil {α : Type} {c : Prop} [Decidable c] {l : List α} {o : α}
    (h : o ∈ (if c then [] else l)) : o ∈ l := by
  by_cases hc : c
  · rw [if_pos hc] at h
    exact absurd h (List.not_mem_nil o)
  · rwa [if_neg hc] at h

/-- Membership is preserved when peeling an if whose else-branch is
empty. -/
theorem mem_of_mem_ite_nil' {α : Type} {c : Prop} [Decidable c] {l : List α} {o : α}
    (h : o ∈ (if c then l else [])) : o ∈ l := by
  by_cases hc : c
  · rwa [if_pos hc] at h
  · rw [if_neg hc] at h
    exact absurd h (List.not_mem_nil o)

/-- Insertion used by the edge sort neither adds nor removes elements. -/
theorem mem_insertByEdge {x o : Opportunity} : ∀ {l : List Opportunity},
    x ∈ insertByEdge o l ↔ x = o ∨ x ∈ l := by
  intro l
  induction l with
  | nil => simp [insertByEdge]
  | cons y ys ih =>
    simp only [insertByEdge]
    split_ifs <;> (simp only [List.mem_cons, ih]; try tauto)

/-- Unfolding equation of the edge sort. -/
theorem sortByEdgeDesc_cons (y : Opportunity) (ys : List Opportunity) :
    sortByEdgeDesc (y :: ys) = insertByEdge y (sortByEdgeDesc ys) := rfl

/-- The edge sort is a permutation: membership is unchanged. -/
theorem mem_sortByEdgeDesc {x : Opportunity} : ∀ {l : List Opportunity},
    x ∈ sortByEdgeDesc l ↔ x ∈ l := by
  intro l
  induction l with
  | nil => simp [sortByEdgeDesc]
  | cons y ys ih =>
    rw [sortByEdgeDesc_cons, mem_insertByEdge, ih, List.mem_cons]

/-- Every opportunity produced by the per-side scan body carries the
scanned coin state. -/
theorem state_of_mem_check_side {cfg : SniperConfig} {now : ℚ} {st : ScanState}
    {fv : FairValue} {side : String} {o : Opportunity}
    (h : o ∈ check_side cfg now st fv side) : o.state = st := by
  simp only [check_side] at h
  replace h := mem_of_mem_ite_nil h
  replace h := mem_of_mem_ite_nil h
  replace h := mem_of_mem_ite_nil h
  replace h := mem_of_mem_ite_nil h
  replace h := mem_of_mem_ite_nil h
  replace h := mem_of_mem_ite_nil h
  replace h := mem_of_mem_ite_nil h
  replace h := mem_of_mem_ite_nil h
  replace h := mem_of_mem_ite_nil' h
  replace h := mem_of_mem_ite_nil h
  by_cases hm : cfg.min_momentum > 0 ∧ st.strike_price > 0
  · rw [if_pos hm] at h
    replace h := mem_of_mem_ite_nil h
    replace h := mem_of_mem_ite_nil h
    rw [List.mem_singleton] at h
    rw [h]
  · rw [if_neg hm] at h
    rw [List.mem_singleton] at h
    rw [h]

/-- Every opportunity produced by the fair-value tail of the per-coin
scan body carries the scanned coin state. -/
theorem state_of_mem_fv {cfg : SniperConfig} {now : ℚ} {st : ScanState}
    {o : Opportunity} (h : o ∈ coin_opportunities_fv cfg now st) : o.state = st := by
  unfold coin_opportunities_fv at h
  revert h
  rcases st.fair_value with _ | fv <;> intro h
  · simp at h
  · dsimp only at h
    rw [List.mem_flatMap] at h
    obtain ⟨side, _, hcs⟩ := h
    exact state_of_mem_check_side hcs

/-- Every opportunity produced by the per-coin scan body carries the
scanned coin state, and that state passed the startup-slug guard. -/
theorem mem_coin_opportunities {cfg : SniperConfig} {now : ℚ} {st : ScanState}
    {o : Opportunity} (h : o ∈ coin_opportunities cfg now st) :
    o.state = st ∧ st.startup_slug ≠ "" ∧ st.current_slug ≠ st.startup_slug := by
  unfold coin_opportunities at h
  split_ifs at h with h1 h2 h3 h4 h5 h6
  all_goals try exact absurd h (List.not_mem_nil o)
  simp only [Bool.or_eq_true, beq_iff_eq, not_or] at h2
  exact ⟨state_of_mem_fv h, h2.1, h2.2⟩

/-- C2 counterexample: with seconds_to_expiry = 0, spot = 2, strike = 1
the expired branch of BinaryFairValue.calculate returns fair_up = 1,
which is outside the claimed interval [0.01, 0.99]: the clamp is not
applied on the expired branch. -/
theorem calculate_clamp_counterexample :
    (calculate (fun _ => 0) (fun _ => 0) (fun _ => 0) {} 2 1 0 (1/2)).fair_up = 1 ∧
    MAX_PRICE < (calculate (fun _ => 0) (fun _ => 0) (fun _ => 0) {} 2 1 0 (1/2)).fair_up := by
  constructor <;> norm_num [calculate, MAX_PRICE]

/-- C2 (amended): whenever seconds_to_expiry > 0 both fair_up and
fair_down of BinaryFairValue.calculate lie in [0.01, 0.99] (including
the non-positive-price branch and the near-zero vol·sqrt(T) branch);
when seconds_to_expiry ≤ 0 the result is the unclamped deterministic
step, fair_up ∈ {0, 1/2, 1}. -/
theorem calculate_output_clamped (ncdf rlog rsqrt : ℚ → ℚ) (cfg : BFVParams)
    (spot strike seconds_to_expiry volatility : ℚ) :
    (0 < seconds_to_expiry →
      MIN_PRICE ≤ (calculate ncdf rlog rsqrt cfg spot strike seconds_to_expiry volatility).fair_up ∧
      (calculate ncdf rlog rsqrt cfg spot strike seconds_to_expiry volatility).fair_up ≤ MAX_PRICE ∧
      MIN_PRICE ≤ (calculate ncdf rlog rsqrt cfg spot strike seconds_to_expiry volatility).fair_down ∧
      (calculate ncdf rlog rsqrt cfg spot strike seconds_to_expiry volatility).fair_down ≤ MAX_PRICE) ∧
    (seconds_to_expiry ≤ 0 →
      (calculate ncdf rlog rsqrt cfg spot strike seconds_to_expiry volatility).fair_up = 0 ∨
      (calculate ncdf rlog rsqrt cfg spot strike seconds_to_expiry volatility).fair_up = 1/2 ∨
      (calculate ncdf rlog rsqrt cfg spot strike seconds_to_expiry volatility).fair_up = 1) := by
  unfold calculate
  by_cases h : seconds_to_expiry ≤ 0
  · rw [if_pos h]
    refine ⟨fun hpos => absurd h (not_le.mpr hpos), fun _ => ?_⟩
    dsimp only
    split_ifs <;> simp
  · rw [if_neg h]
    refine ⟨fun _ => ?_, fun hle => absurd hle h⟩
    by_cases h2 : spot ≤ 0 ∨ strike ≤ 0
    · rw [if_pos h2]
      norm_num [MIN_PRICE, MAX_PRICE]
    · rw [if_neg h2]
      dsimp only
      refine ⟨le_max_left _ _, ?_, le_max_left _ _, ?_⟩
      · exact max_le (by norm_num [MIN_PRICE, MAX_PRICE]) (min_le_left _ _)
      · exact max_le (by norm_num [MIN_PRICE, MAX_PRICE]) (min_le_left _ _)

/-- C2 witness: the clamped bounds at a live input (spot 2, strike 1,
600 s to expiry) and the deterministic step at an expired input. -/
theorem calculate_output_clamped_witness :
    (MIN_PRICE ≤ (calculate (fun _ => 0) (fun _ => 0) (fun _ => 0) {} 2 1 600 (1/2)).fair_up ∧
      (calculate (fun _ => 0) (fun _ => 0) (fun _ => 0) {} 2 1 600 (1/2)).fair_up ≤ MAX_PRICE ∧
      MIN_PRICE ≤ (calculate (fun _ => 0) (fun _ => 0) (fun _ => 0) {} 2 1 600 (1/2)).fair_down ∧
      (calculate (fun _ => 0) (fun _ => 0) (fun _ => 0) {} 2 1 600 (1/2)).fair_down ≤ MAX_PRICE) ∧
    ((calculate (fun _ => 0) (fun _ => 0) (fun _ => 0) {} 2 1 0 (1/2)).fair_up = 0 ∨
      (calculate (fun _ => 0) (fun _ => 0) (fun _ => 0) {} 2 1 0 (1/2)).fair_up = 1/2 ∨
      (calculate (fun _ => 0) (fun _ => 0) (fun _ => 0) {} 2 1 0 (1/2)).fair_up = 1) :=
  ⟨(calculate_output_clamped (fun _ => 0) (fun _ => 0) (fun _ => 0) {} 2 1 600 (1/2)).1
      (by norm_num),
    (calculate_output_clamped (fun _ => 0) (fun _ => 0) (fun _ => 0) {} 2 1 0 (1/2)).2
      (by norm_num)⟩

/-- C10: for non-positive spot or strike with positive time to expiry,
BinaryFairValue.calculate returns fair_up = fair_down = 1/2 and d = 0:
the logarithm and division of the d-statistic are never reached. -/
theorem calculate_nonpositive_price_total (ncdf rlog rsqrt : ℚ → ℚ) (cfg : BFVParams)
    (spot strike seconds_to_expiry volatility : ℚ)
    (hpos : 0 < seconds_to_expiry) (hnp : spot ≤ 0 ∨ strike ≤ 0) :
    (calculate ncdf rlog rsqrt cfg spot strike seconds_to_expiry volatility).fair_up = 1/2 ∧
    (calculate ncdf rlog rsqrt cfg spot strike seconds_to_expiry volatility).fair_down = 1/2 ∧
    (calculate ncdf rlog rsqrt cfg spot strike seconds_to_expiry volatility).d = DStat.val 0 := by
  unfold calculate
  rw [if_neg (not_le.mpr hpos), if_pos hnp]
  exact ⟨rfl, rfl, rfl⟩

/-- C10 witness: a negative spot with 600 s to expiry. -/
theorem calculate_nonpositive_price_total_witness :
    (calculate (fun _ => 0) (fun _ => 0) (fun _ => 0) {} (-1) 5 600 1).fair_up = 1/2 ∧
    (calculate (fun _ => 0) (fun _ => 0) (fun _ => 0) {} (-1) 5 600 1).fair_down = 1/2 ∧
    (calculate (fun _ => 0) (fun _ => 0) (fun _ => 0) {} (-1) 5 600 1).d = DStat.val 0 :=
  calculate_nonpositive_price_total (fun _ => 0) (fun _ => 0) (fun _ => 0) {} (-1) 5 600 1
    (by norm_num) (Or.inl (by norm_num))

/-- C3 counterexample: with the default configuration (min_bet_usdc = 1,
max_bet_fraction = 0.15) and available capital 2, a bet at fair
probability 0.9 and entry price 0.5 returns 1 USDC, which exceeds
max_bet_fraction * available = 0.3: the Polymarket minimum-bet floor is
applied after the hard cap and can override it. -/
theorem kelly_hard_cap_counterexample :
    kelly_bet_usdc defaultSniperConfig 0 2 (9/10) (1/2) false = 1 ∧
    defaultSniperConfig.max_bet_fraction * 2 < 1 := by
  constructor
  · norm_num [kelly_bet_usdc, defaultSniperConfig]
  · norm_num [defaultSniperConfig]

/-- C3 (amended): the bet returned by _kelly_bet_usdc never exceeds the
larger of the minimum-bet floor and max_bet_fraction times the available
capital; in particular it respects the hard-cap fraction whenever that
cap is at least the minimum bet. -/
theorem kelly_bet_hard_capped (cfg : SniperConfig)
    (adaptive_fraction available fair_prob entry_price : ℚ) (strong : Bool)
    (hcap : 0 < cfg.max_bet_fraction) (hav : 0 ≤ available) :
    kelly_bet_usdc cfg adaptive_fraction available fair_prob entry_price strong ≤
      max cfg.min_bet_usdc (cfg.max_bet_fraction * available) := by
  have hca : 0 ≤ cfg.max_bet_fraction * available := mul_nonneg hcap.le hav
  have h0 : (0 : ℚ) ≤ max cfg.min_bet_usdc (cfg.max_bet_fraction * available) :=
    hca.trans (le_max_right _ _)
  have key : ∀ z : ℚ,
      min (max cfg.min_bet_usdc
        (min cfg.max_bet_usdc (min z cfg.max_bet_fraction * available))) available ≤
      max cfg.min_bet_usdc (cfg.max_bet_fraction * available) := by
    intro z
    refine le_trans (min_le_left _ _) (max_le_max le_rfl ?_)
    exact le_trans (min_le_right _ _)
      (mul_le_mul_of_nonneg_right (min_le_right _ _) hav)
  simp only [kelly_bet_usdc]
  split_ifs
  any_goals exact h0
  all_goals exact key _

/-- C3 witness: the bound at the default configuration with 10 USDC
available, fair probability 0.7 and entry price 0.5. -/
theorem kelly_bet_hard_capped_witness :
    kelly_bet_usdc defaultSniperConfig 0 10 (7/10) (1/2) false ≤
      max defaultSniperConfig.min_bet_usdc (defaultSniperConfig.max_bet_fraction * 10) :=
  kelly_bet_hard_capped defaultSniperConfig 0 10 (7/10) (1/2) false
    (by norm_num [defaultSniperConfig]) (by norm_num)

/-- C8: for any entry price strictly inside (0.01, 0.99), a fair
probability at or below the entry price makes _kelly_bet_usdc return
exactly 0 — the Kelly fraction is non-positive and the function rejects
before any minimum-bet floor is applied. -/
theorem kelly_rejects_without_edge (cfg : SniperConfig)
    (adaptive_fraction available fair_prob entry_price : ℚ) (strong : Bool)
    (h1 : 1/100 < entry_price) (h2 : entry_price < 99/100) (h3 : fair_prob ≤ entry_price) :
    kelly_bet_usdc cfg adaptive_fraction available fair_prob entry_price strong = 0 := by
  by_cases hp : fair_prob ≤ 0
  · simp only [kelly_bet_usdc]
    rw [if_pos (Or.inr (Or.inr hp))]
  · push_neg at hp
    have hP0 : 0 < entry_price := lt_trans (by norm_num) h1
    have hb : 0 < 1 / entry_price - 1 := by
      have h1p : 1 < 1 / entry_price := by
        rw [lt_div_iff₀ hP0]
        linarith
      linarith
    have hkf : (fair_prob * (1 / entry_price - 1) - (1 - fair_prob)) /
        (1 / entry_price - 1) ≤ 0 := by
      apply div_nonpos_of_nonpos_of_nonneg _ hb.le
      have hnum : fair_prob * (1 / entry_price - 1) - (1 - fair_prob) =
          (fair_prob - entry_price) / entry_price := by
        field_simp
        ring
      rw [hnum]
      exact div_nonpos_of_nonpos_of_nonneg (by linarith) hP0.le
    simp only [kelly_bet_usdc]
    rw [if_neg, if_neg (not_le.mpr hb), if_pos hkf]
    simp only [not_or, not_le]
    exact ⟨h1, h2, hp⟩

/-- C8 witness: fair probability 0.4 at entry price 0.5 gives a zero bet. -/
theorem kelly_rejects_without_edge_witness :
    kelly_bet_usdc defaultSniperConfig 0 20 (2/5) (1/2) false = 0 :=
  kelly_rejects_without_edge defaultSniperConfig 0 20 (2/5) (1/2) false
    (by norm_num) (by norm_num) (by norm_num)

/-- C4 counterexample: a failed balance query (None) with cached balance
20 USDC, past the rate limit, leaves the cached 20 in place, and the
available balance used for sizing is 20, not zero. -/
theorem balance_failure_counterexample :
    refresh_balance 100 0 20 none = (20, 100) ∧
    available_balance (refresh_balance 100 0 20 none).1 = 20 := by
  constructor <;> norm_num [refresh_balance, available_balance]

/-- C4 (amended): when the balance query fails (returns None),
_refresh_balance keeps the previously cached balance unchanged (only the
rate-limit clock advances), so subsequent sizing uses the cached balance
floored at zero — never a forced zero. -/
theorem balance_failure_keeps_cached (now last_balance_check balance : ℚ)
    (hrate : 10 ≤ now - last_balance_check) :
    (refresh_balance now last_balance_check balance none).1 = balance ∧
    available_balance (refresh_balance now last_balance_check balance none).1 =
      max 0 balance := by
  unfold refresh_balance available_balance
  rw [if_neg (not_lt.mpr hrate)]
  exact ⟨rfl, rfl⟩

/-- C4 witness: cached balance 20, query failing at time 100. -/
theorem balance_failure_keeps_cached_witness :
    (refresh_balance 100 0 20 none).1 = 20 ∧
    available_balance (refresh_balance 100 0 20 none).1 = max 0 20 :=
  balance_failure_keeps_cached 100 0 20 (by norm_num)

/-- C1 counterexample: a live min-size snipe at entry price 0.5 with 10
USDC available whose FOK order fills ("MATCHED") submits the order and
then ends in the TypeError of the malformed log_trade call: its trace is
[placeOrder] with no ledger write anywhere — a submitted (and filled)
order with no pending record persisted before or after the network
call. -/
theorem ledger_write_order_counterexample :
    executeSnipeLive defaultSniperConfig 0 10 (7/10) (1/2) false false true
      ⟨true, "MATCHED"⟩ ⟨false, ""⟩ =
      ([SnipeEvent.placeOrder], SnipeOutcome.raisesTypeError) ∧
    SnipeEvent.ledgerWrite ∉ (executeSnipeLive defaultSniperConfig 0 10 (7/10) (1/2)
      false false true ⟨true, "MATCHED"⟩ ⟨false, ""⟩).1 := by
  have h : executeSnipeLive defaultSniperConfig 0 10 (7/10) (1/2) false false true
      ⟨true, "MATCHED"⟩ ⟨false, ""⟩ =
      ([SnipeEvent.placeOrder], SnipeOutcome.raisesTypeError) := by
    norm_num [executeSnipeLive, snipeSizing, statusUnfilled, defaultSniperConfig]
    decide
  refine ⟨h, ?_⟩
  rw [h]
  decide

/-- C1 (amended): the live path of _execute_snipe never persists a
pending ledger record at all — the trace of every execution contains no
ledgerWrite, the call never returns True, and whenever it ends in the
TypeError of the malformed log_trade call an order submission has
already happened.  So at any crash point a submitted order has no
pending record: the opposite of the persisted-before-the-network-call
ordering the specification claims, compounded by the log_trade call
site raising TypeError before any write. -/
theorem live_snipe_never_persists_pending (cfg : SniperConfig)
    (adaptive_fraction available fair_prob entry_price : ℚ)
    (strong use_kelly has_token : Bool) (first retry : OrderResult) :
    SnipeEvent.ledgerWrite ∉ (executeSnipeLive cfg adaptive_fraction available
      fair_prob entry_price strong use_kelly has_token first retry).1 ∧
    (executeSnipeLive cfg adaptive_fraction available fair_prob entry_price
      strong use_kelly has_token first retry).2 ≠ SnipeOutcome.returns true ∧
    ((executeSnipeLive cfg adaptive_fraction available fair_prob entry_price
        strong use_kelly has_token first retry).2 = SnipeOutcome.raisesTypeError →
      SnipeEvent.placeOrder ∈ (executeSnipeLive cfg adaptive_fraction available
        fair_prob entry_price strong use_kelly has_token first retry).1) := by
  unfold executeSnipeLive
  rcases snipeSizing cfg adaptive_fraction available fair_prob entry_price
    strong use_kelly with _ | n
  · dsimp only
    decide
  · dsimp only
    split_ifs <;> decide

/-- C1 witness: at the filled live snipe, no ledger write occurs, the
call does not return True, and the TypeError strikes only after the
order submission. -/
theorem live_snipe_never_persists_pending_witness :
    SnipeEvent.ledgerWrite ∉ (executeSnipeLive defaultSniperConfig 0 10 (7/10) (1/2)
      false false true ⟨true, "MATCHED"⟩ ⟨false, ""⟩).1 ∧
    (executeSnipeLive defaultSniperConfig 0 10 (7/10) (1/2) false false true
      ⟨true, "MATCHED"⟩ ⟨false, ""⟩).2 ≠ SnipeOutcome.returns true ∧
    SnipeEvent.placeOrder ∈ (executeSnipeLive defaultSniperConfig 0 10 (7/10) (1/2)
      false false true ⟨true, "MATCHED"⟩ ⟨false, ""⟩).1 := by
  have h := live_snipe_never_persists_pending defaultSniperConfig 0 10 (7/10) (1/2)
    false false true ⟨true, "MATCHED"⟩ ⟨false, ""⟩
  refine ⟨h.1, h.2.1, h.2.2 ?_⟩
  have he : executeSnipeLive defaultSniperConfig 0 10 (7/10) (1/2) false false true
      ⟨true, "MATCHED"⟩ ⟨false, ""⟩ =
      ([SnipeEvent.placeOrder], SnipeOutcome.raisesTypeError) := by
    norm_num [executeSnipeLive, snipeSizing, statusUnfilled, defaultSniperConfig]
    decide
  rw [he]

/-- C7: the circuit breaker.  (1) A settled loss in a window different
from the last counted one increments the consecutive-losing-window
counter, and if the counter reaches a positive configured threshold the
breaker trips.  (2) A second loss in the same window (e.g. another coin
settling in the same 5m window) leaves the counter unchanged — one
window counts once.  (3) Any win resets the counter to zero.  (4) Once
tripped, the breaker stays tripped through any further settlement (no
reset path exists in the code).  (5) While tripped the opportunity scan
returns the empty list, so no further orders are submitted.  (6) Five
consecutive losing windows with threshold 5 trip the breaker, and (7)
two coins losing in the same window count as one losing window. -/
theorem circuit_breaker_behavior :
    (∀ (max_losses : ℕ) (st : BreakerState) (slug : String), 0 < max_losses →
      windowIdOf slug ≠ st.last_loss_window →
      (record_settlement max_losses st slug false).consecutive_loss_windows =
        st.consecutive_loss_windows + 1 ∧
      (max_losses ≤ st.consecutive_loss_windows + 1 →
        (record_settlement max_losses st slug false).tripped = true)) ∧
    (∀ (max_losses : ℕ) (st : BreakerState) (slug1 slug2 : String),
      windowIdOf slug2 = windowIdOf slug1 →
      (record_settlement max_losses (record_settlement max_losses st slug1 false)
          slug2 false).consecutive_loss_windows =
        (record_settlement max_losses st slug1 false).consecutive_loss_windows) ∧
    (∀ (max_losses : ℕ) (st : BreakerState) (slug : String),
      (record_settlement max_losses st slug true).consecutive_loss_windows = 0) ∧
    (∀ (max_losses : ℕ) (st : BreakerState) (slug : String) (won : Bool),
      st.tripped = true → (record_settlement max_losses st slug won).tripped = true) ∧
    (∀ (cfg : SniperConfig) (hb wb : Bool) (now : ℚ) (states : List ScanState),
      findOpportunities cfg true hb wb now states = []) ∧
    (process_settlements 5 initBreaker
      [("btc-updown-5m-100", false), ("btc-updown-5m-200", false),
       ("btc-updown-5m-300", false), ("btc-updown-5m-400", false),
       ("btc-updown-5m-500", false)]).tripped = true ∧
    (process_settlements 5 initBreaker
      [("btc-updown-5m-100", false), ("eth-updown-5m-100", false)]).consecutive_loss_windows
      = 1 := by
  refine ⟨?_, ?_, ?_, ?_, ?_, by decide, by decide⟩
  · intro max_losses st slug hpos hne
    simp only [record_settlement, Bool.false_eq_true, if_false, ite_not]
    rw [if_neg hne]
    constructor
    · split_ifs <;> rfl
    · intro hthr
      rw [if_pos ⟨hpos, hthr⟩]
  · intro max_losses st slug1 slug2 heq
    simp only [record_settlement, Bool.false_eq_true, if_false, ite_not]
    by_cases h1 : windowIdOf slug1 = st.last_loss_window
    · rw [if_pos h1]
      split_ifs <;> simp_all
    · rw [if_neg h1]
      split_ifs <;> simp_all
  · intro max_losses st slug
    simp [record_settlement]
  · intro max_losses st slug won ht
    simp only [record_settlement]
    split_ifs <;> simp_all
  · intro cfg hb wb now states
    simp [findOpportunities]

/-- C7 witness: the breaker trips on the fifth losing window at
threshold 5; two coins losing in the 5m window "100" count once; a win
resets the counter; a tripped breaker stays tripped; and the scan while
tripped is empty. -/
theorem circuit_breaker_behavior_witness :
    ((record_settlement 5 ⟨4, "100", false⟩ "btc-updown-5m-200" false).consecutive_loss_windows
        = 4 + 1 ∧
      (record_settlement 5 ⟨4, "100", false⟩ "btc-updown-5m-200" false).tripped = true) ∧
    (record_settlement 5 (record_settlement 5 ⟨0, "", false⟩ "btc-updown-5m-100" false)
        "eth-updown-5m-100" false).consecutive_loss_windows =
      (record_settlement 5 ⟨0, "", false⟩ "btc-updown-5m-100" false).consecutive_loss_windows ∧
    (record_settlement 5 ⟨3, "100", true⟩ "btc-updown-5m-200" true).consecutive_loss_windows
      = 0 ∧
    (record_settlement 0 ⟨2, "x", true⟩ "s" false).tripped = true ∧
    findOpportunities defaultSniperConfig true false false 0 [] = [] :=
  ⟨⟨(circuit_breaker_behavior.1 5 ⟨4, "100", false⟩ "btc-updown-5m-200" (by decide)
        (by decide)).1,
      (circuit_breaker_behavior.1 5 ⟨4, "100", false⟩ "btc-updown-5m-200" (by decide)
        (by decide)).2 (by decide)⟩,
    circuit_breaker_behavior.2.1 5 ⟨0, "", false⟩ "btc-updown-5m-100" "eth-updown-5m-100"
      (by decide),
    circuit_breaker_behavior.2.2.1 5 ⟨3, "100", true⟩ "btc-updown-5m-200",
    circuit_breaker_behavior.2.2.2.1 0 ⟨2, "x", true⟩ "s" false rfl,
    circuit_breaker_behavior.2.2.2.2.1 defaultSniperConfig false false 0 []⟩

/-- Evaluation of the witness scan, up side: one opportunity at ask 0.50
with edge 0.20. -/
theorem check_side_up_eval : check_side scanCfgW 1000 scanStW scanFvW "up" = [scanOppW] := by
  unfold check_side
  simp only [scanCfgW, scanStW, scanFvW, scanOppW]
  norm_num [round2, bankersRound, taker_fee_per_token, taker_fee_rate]
  simp +decide
  norm_num

/-- Evaluation of the witness scan, down side: filtered out (no ask). -/
theorem check_side_down_eval : check_side scanCfgW 1000 scanStW scanFvW "down" = [] := by
  unfold check_side
  simp only [scanCfgW, scanStW, scanFvW]
  norm_num
  simp +decide

/-- Evaluation of the full witness scan: the scan is not vacuous — it
returns exactly the up-side opportunity. -/
theorem scan_eval : findOpportunities scanCfgW false false false 1000 [scanStW] = [scanOppW] := by
  have hco : coin_opportunities scanCfgW 1000 scanStW = [scanOppW] := by
    unfold coin_opportunities
    rw [if_neg (by decide), if_neg (by decide), if_neg (by norm_num [scanStW]),
        if_neg (by norm_num [scanCfgW, scanStW]), if_neg (by norm_num [scanCfgW, scanStW]),
        if_neg (by norm_num [scanCfgW, scanStW])]
    unfold coin_opportunities_fv
    rw [show scanStW.fair_value = some scanFvW from rfl]
    dsimp only
    rw [if_neg (by decide), if_neg (by decide)]
    rw [List.flatMap_cons, List.flatMap_cons, List.flatMap_nil]
    rw [check_side_up_eval, check_side_down_eval]
    rfl
  unfold findOpportunities
  rw [if_neg (by decide), if_neg (by decide), if_neg (by decide)]
  rw [List.flatMap_cons, List.flatMap_nil, hco]
  rfl

/-- C9: every opportunity the scan returns comes from a coin state whose
startup slug was recorded and differs from the current slug — the
market window active at process startup (or a coin whose startup slug
was never recorded) is never traded, on every tick. -/
theorem startup_window_excluded (cfg : SniperConfig)
    (tripped hour_blocked weekend_blocked : Bool) (now : ℚ)
    (states : List ScanState) (o : Opportunity)
    (h : o ∈ findOpportunities cfg tripped hour_blocked weekend_blocked now states) :
    o.state.startup_slug ≠ "" ∧ o.state.current_slug ≠ o.state.startup_slug := by
  unfold findOpportunities at h
  split_ifs at h
  all_goals try exact absurd h (List.not_mem_nil o)
  rw [mem_sortByEdgeDesc, List.mem_flatMap] at h
  obtain ⟨st, _, ho⟩ := h
  obtain ⟨hstate, hs1, hs2⟩ := mem_coin_opportunities ho
  rw [hstate]
  exact ⟨hs1, hs2⟩

/-- C9 witness: the concrete scan returns the up-side opportunity, whose
state records startup slug "btc-updown-4h-100" distinct from the traded
slug "btc-updown-4h-200". -/
theorem startup_window_excluded_witness :
    scanOppW.state.startup_slug ≠ "" ∧
    scanOppW.state.current_slug ≠ scanOppW.state.startup_slug :=
  startup_window_excluded scanCfgW false false false 1000 [scanStW] scanOppW
    (by rw [scan_eval]; exact List.mem_singleton.mpr rfl)


/-- Lookup of an absent key in a dict is none. -/
theorem alistGet_eq_none_of_not_mem {α β : Type} [BEq α] [LawfulBEq α]
    {m : List (α × β)} {k : α} (h : k ∉ m.map Prod.fst) : alistGet m k = none := by
  induction m with
  | nil => rfl
  | cons kv rest ih =>
    simp only [List.map_cons, List.mem_cons, not_or] at h
    have hk : (kv.1 == k) = false := beq_eq_false_iff_ne.mpr (fun he => h.1 he.symm)
    simp only [alistGet, hk, Bool.false_eq_true, if_false]
    exact ih h.2

/-- Popping a key from a dict with distinct keys removes it: the
subsequent lookup is none. -/
theorem alistGet_erase_self {α β : Type} [BEq α] [LawfulBEq α]
    {m : List (α × β)} {k : α} (hnd : (m.map Prod.fst).Nodup) :
    alistGet (alistErase m k) k = none := by
  induction m with
  | nil => rfl
  | cons kv rest ih =>
    simp only [List.map_cons, List.nodup_cons] at hnd
    by_cases hk : (kv.1 == k) = true
    · simp only [alistErase, hk, if_true]
      have : k ∉ rest.map Prod.fst := by
        rw [← eq_of_beq hk]
        exact hnd.1
      exact alistGet_eq_none_of_not_mem this
    · simp only [alistErase, hk, Bool.false_eq_true, if_false, alistGet]
      exact ih hnd.2

/-- Popping a key from a dict leaves every other key's entry intact. -/
theorem alistGet_erase_ne {α β : Type} [BEq α] [LawfulBEq α]
    {m : List (α × β)} {k k' : α} (hne : k' ≠ k) :
    alistGet (alistErase m k) k' = alistGet m k' := by
  induction m with
  | nil => rfl
  | cons kv rest ih =>
    by_cases hk : (kv.1 == k) = true
    · have : (kv.1 == k') = false := by
        rw [eq_of_beq hk]
        exact beq_eq_false_iff_ne.mpr (fun he => hne he.symm)
      simp only [alistErase, hk, if_true, alistGet, this, Bool.false_eq_true, if_false]
    · simp only [alistErase, hk, Bool.false_eq_true, if_false, alistGet]
      by_cases hk' : (kv.1 == k') = true
      · simp only [hk', if_true]
      · simp only [hk', Bool.false_eq_true, if_false]
        exact ih

/-- C5: resolving a pending (marketId, side) key removes exactly that
entry from the pending map (its lookup becomes none while every other
key is untouched), appends exactly one resolved record to the resolved
log, and calling log_outcome a second time on the same key is a no-op:
the whole logger state — pending map, resolved log and aggregate
stats — is unchanged. -/
theorem log_outcome_resolves (s : LoggerState) (market_slug side : String) (won : Bool)
    (payout usdc_balance : ℚ) (r : TradeRecord)
    (hnd : (s.pending.map Prod.fst).Nodup)
    (hr : alistGet s.pending (market_slug ++ ":" ++ side) = some r) :
    alistGet (log_outcome s market_slug side won payout usdc_balance).pending
      (market_slug ++ ":" ++ side) = none ∧
    (∀ k, k ≠ market_slug ++ ":" ++ side →
      alistGet (log_outcome s market_slug side won payout usdc_balance).pending k =
        alistGet s.pending k) ∧
    (log_outcome s market_slug side won payout usdc_balance).resolved =
      s.resolved ++ [resolve_record r won payout usdc_balance] ∧
    log_outcome (log_outcome s market_slug side won payout usdc_balance)
      market_slug side won payout usdc_balance =
      log_outcome s market_slug side won payout usdc_balance := by
  have hpend : (log_outcome s market_slug side won payout usdc_balance).pending =
      alistErase s.pending (market_slug ++ ":" ++ side) := by
    simp only [log_outcome, hr]
  have hres : (log_outcome s market_slug side won payout usdc_balance).resolved =
      s.resolved ++ [resolve_record r won payout usdc_balance] := by
    simp only [log_outcome, hr]
  have h1 : alistGet (log_outcome s market_slug side won payout usdc_balance).pending
      (market_slug ++ ":" ++ side) = none := by
    rw [hpend]
    exact alistGet_erase_self hnd
  refine ⟨h1, ?_, hres, ?_⟩
  · intro k hk
    rw [hpend]
    exact alistGet_erase_ne hk
  · set s1 := log_outcome s market_slug side won payout usdc_balance with hs1
    simp only [log_outcome, h1]

/-- Decoding the serialized dict of any trade record rebuilds the
record field for field. -/
theorem fromDict_asdict (r : TradeRecord) : fromDictTR (asdictTR r) = some r := rfl

/-- Dict assignment of a fresh key appends the entry at the end. -/
theorem alistSet_append_of_not_mem {α β : Type} [BEq α] [LawfulBEq α]
    {m : List (α × β)} {k : α} {v : β} (h : k ∉ m.map Prod.fst) :
    alistSet m k v = m ++ [(k, v)] := by
  induction m with
  | nil => rfl
  | cons kv rest ih =>
    simp only [List.map_cons, List.mem_cons, not_or] at h
    have hk : (kv.1 == k) = false := beq_eq_false_iff_ne.mpr (fun he => h.1 he.symm)
    simp only [alistSet, hk, Bool.false_eq_true, if_false, List.cons_append,
      List.cons.injEq, true_and]
    exact ih h.2

/-- Keys after a dict assignment are the old keys or the assigned key. -/
theorem mem_keys_alistSet {α β : Type} [BEq α] [LawfulBEq α]
    {m : List (α × β)} {k a : α} {v : β}
    (h : a ∈ (alistSet m k v).map Prod.fst) : a ∈ m.map Prod.fst ∨ a = k := by
  induction m with
  | nil =>
    simp only [alistSet, List.map_cons, List.map_nil, List.mem_singleton] at h
    exact Or.inr h
  | cons kv rest ih =>
    by_cases hk : (kv.1 == k) = true
    · simp only [alistSet, hk, if_true, List.map_cons, List.mem_cons] at h
      rcases h with h | h
      · exact Or.inr h
      · exact Or.inl (by simp [h])
    · simp only [alistSet, hk, Bool.false_eq_true, if_false, List.map_cons,
        List.mem_cons] at h
      rcases h with h | h
      · exact Or.inl (by simp [h])
      · rcases ih h with h' | h'
        · exact Or.inl (by simp [h'])
        · exact Or.inr h'

/-- Dict assignment preserves distinctness of keys. -/
theorem nodup_keys_alistSet {α β : Type} [BEq α] [LawfulBEq α]
    {m : List (α × β)} {k : α} {v : β}
    (hnd : (m.map Prod.fst).Nodup) : ((alistSet m k v).map Prod.fst).Nodup := by
  induction m with
  | nil => simp [alistSet]
  | cons kv rest ih =>
    simp only [List.map_cons, List.nodup_cons] at hnd
    by_cases hk : (kv.1 == k) = true
    · simp only [alistSet, hk, if_true, List.map_cons, List.nodup_cons]
      refine ⟨?_, hnd.2⟩
      rw [← eq_of_beq hk]
      exact hnd.1
    · simp only [alistSet, hk, Bool.false_eq_true, if_false, List.map_cons,
        List.nodup_cons]
      refine ⟨?_, ih hnd.2⟩
      intro hmem
      rcases mem_keys_alistSet hmem with h' | h'
      · exact hnd.1 h'
      · exact hk (by rw [h']; exact beq_self_eq_true k)

/-- Loading the serialized form of a pending dict with distinct keys
reproduces the dict, for any already-loaded prefix with disjoint keys. -/
theorem loadPendingGo_savePending : ∀ (m acc : List (String × TradeRecord)),
    ((acc ++ m).map Prod.fst).Nodup →
    loadPendingGo acc (savePending m) = acc ++ m := by
  intro m
  induction m with
  | nil =>
    intro acc _
    simp [savePending, loadPendingGo]
  | cons kv rest ih =>
    intro acc hnd
    rw [List.map_append] at hnd
    have hdisj := List.disjoint_of_nodup_append hnd
    have hfresh : kv.1 ∉ acc.map Prod.fst := by
      intro hmem
      exact hdisj hmem (by simp)
    simp only [savePending, List.map_cons, loadPendingGo, fromDict_asdict]
    rw [alistSet_append_of_not_mem hfresh]
    have hsave : List.map (fun kv => (kv.1, asdictTR kv.2)) rest = savePending rest := rfl
    rw [hsave, ih (acc ++ [kv]) ?_]
    · simp
    · rw [List.map_append]
      simpa [List.append_assoc] using hnd

/-- The save/load round trip on the pending sidecar is the identity on
any pending map with distinct keys. -/
theorem load_save_pending (m : List (String × TradeRecord))
    (hnd : (m.map Prod.fst).Nodup) : loadPending (savePending m) = m := by
  have h := loadPendingGo_savePending m [] (by simpa using hnd)
  simpa [loadPending] using h

/-- C6: for every trade opened by log_trade, serializing the pending
map to the sidecar store and reloading it — as on a crash-restart —
reproduces the identical pending map, and decoding the serialized form
of the created record rebuilds it field for field. -/
theorem pending_roundtrip_after_log_trade (s : LoggerState)
    (timestamp market_slug coin timeframe side : String)
    (entry_price bet_size_usdc num_tokens bankroll usdc_balance btc_price
      other_side_price volatility_std : ℚ)
    (hnd : (s.pending.map Prod.fst).Nodup) :
    fromDictTR (asdictTR (log_trade s timestamp market_slug coin timeframe side
        entry_price bet_size_usdc num_tokens bankroll usdc_balance btc_price
        other_side_price volatility_std).2) =
      some (log_trade s timestamp market_slug coin timeframe side
        entry_price bet_size_usdc num_tokens bankroll usdc_balance btc_price
        other_side_price volatility_std).2 ∧
    loadPending (savePending (log_trade s timestamp market_slug coin timeframe side
        entry_price bet_size_usdc num_tokens bankroll usdc_balance btc_price
        other_side_price volatility_std).1.pending) =
      (log_trade s timestamp market_slug coin timeframe side
        entry_price bet_size_usdc num_tokens bankroll usdc_balance btc_price
        other_side_price volatility_std).1.pending := by
  refine ⟨fromDict_asdict _, ?_⟩
  apply load_save_pending
  simp only [log_trade]
  exact nodup_keys_alistSet hnd

/-- C6 witness: the round trip at a fresh logger after one trade. -/
theorem pending_roundtrip_after_log_trade_witness :
    fromDictTR (asdictTR (log_trade emptyLogger "t" "m" "BTC" "15m" "up"
        (1/2) (5/2) 5 20 20 0 0 0).2) =
      some (log_trade emptyLogger "t" "m" "BTC" "15m" "up" (1/2) (5/2) 5 20 20 0 0 0).2 ∧
    loadPending (savePending (log_trade emptyLogger "t" "m" "BTC" "15m" "up"
        (1/2) (5/2) 5 20 20 0 0 0).1.pending) =
      (log_trade emptyLogger "t" "m" "BTC" "15m" "up" (1/2) (5/2) 5 20 20 0 0 0).1.pending :=
  pending_roundtrip_after_log_trade emptyLogger "t" "m" "BTC" "15m" "up"
    (1/2) (5/2) 5 20 20 0 0 0 (by simp [emptyLogger])

/-- C5 witness: resolving the single pending trade of ledgerStW as a
win with payout 5. -/
theorem log_outcome_resolves_witness :
    alistGet (log_outcome ledgerStW "m" "up" true 5 0).pending ("m" ++ ":" ++ "up") = none ∧
    (∀ k, k ≠ "m" ++ ":" ++ "up" →
      alistGet (log_outcome ledgerStW "m" "up" true 5 0).pending k =
        alistGet ledgerStW.pending k) ∧
    (log_outcome ledgerStW "m" "up" true 5 0).resolved =
      ledgerStW.resolved ++ [resolve_record ledgerRecW true 5 0] ∧
    log_outcome (log_outcome ledgerStW "m" "up" true 5 0) "m" "up" true 5 0 =
      log_outcome ledgerStW "m" "up" true 5 0 :=
  log_outcome_resolves ledgerStW "m" "up" true 5 0 ledgerRecW
    (by simp [ledgerStW]) rfl

end Sniper
